import Mathlib

/-!
Verification development for the stateless block validator core
(`staker/stateless_block_validator.go`).

The Go code is shallowly embedded: `uint64` values are modelled as `Nat`
with an explicit `% 2 ^ 64` wherever the Go code performs an addition that
could wrap (every subtraction in the source is guarded, so truncated `Nat`
subtraction agrees with the machine subtraction on the guarded paths).
Collaborator interfaces (inbox tracker, inbox reader, streamer, recorder,
data-availability readers, spawners) are modelled as structures of
functions; a Go `(value, error)` return is an `Option`/`Except` value.
Go hash maps are modelled as association lists with first-key-wins lookup.
-/

deriving instance DecidableEq for Except

/-- Modulus of the Go `uint64` type. -/
def U64 : Nat := 2 ^ 64

/-- Byte strings (`[]byte`) are modelled as lists of naturals. -/
abbrev Bytes := List Nat

/-- First-match lookup in an association list; models Go map indexing. -/
def mapFind {β : Type} (k : Nat) : List (Nat × β) → Option β
  | [] => none
  | (a, b) :: rest => if a = k then some b else mapFind k rest

/-- Insert-or-overwrite in an association list; models Go map assignment. -/
def mapInsert {β : Type} (k : Nat) (v : β) : List (Nat × β) → List (Nat × β)
  | [] => [(k, v)]
  | (a, b) :: rest => if a = k then (a, v) :: rest else (a, b) :: mapInsert k v rest

/-- Preimage map: preimage-type keyed map of hash keyed byte strings
(`map[arbutil.PreimageType]map[common.Hash][]byte`). -/
abbrev PreimagesMap := List (Nat × List (Nat × Bytes))

/-- Model of the constant `arbutil.Keccak256PreimageType`. -/
def Keccak256PreimageType : Nat := 0

/-- Go struct `GlobalStatePosition`. -/
structure GlobalStatePosition where
  BatchNumber : Nat
  PosInBatch : Nat
deriving DecidableEq, Repr

/-- Go struct `validator.GoGlobalState`. -/
structure GoGlobalState where
  BlockHash : Nat
  SendRoot : Nat
  Batch : Nat
  PosInBatch : Nat
deriving DecidableEq, Repr

/-- Go struct `execution.MessageResult` (the fields used by this file). -/
structure MessageResult where
  BlockHash : Nat
  SendRoot : Nat
deriving DecidableEq, Repr

/-- Model of `arbostypes.MessageWithMetadata`: the delayed-message counter
field read by `newValidationEntry`, and the result of the
`msg.Message.PastBatchesRequired()` call (`none` models an error). -/
structure MessageWithMetadata where
  DelayedMessagesRead : Nat
  PastBatchesRequired : Option (List Nat)
deriving DecidableEq, Repr

/-- Model of `params.ChainConfig`: only `DebugMode()` is consulted. -/
structure ChainConfigModel where
  DebugMode : Bool
deriving DecidableEq, Repr

/-- Go struct `FullBatchInfo`. -/
structure FullBatchInfo where
  Number : Nat
  PostedData : Bytes
  MsgCount : Nat
  Preimages : PreimagesMap
deriving DecidableEq, Repr

/-- Go struct `validator.BatchInfo`. -/
structure BatchInfo where
  Number : Nat
  Data : Bytes
deriving DecidableEq, Repr

/-- Go enumeration `ValidationEntryStage`. -/
inductive ValidationEntryStage where
  | Empty
  | ReadyForRecord
  | Ready
deriving DecidableEq, Repr

/-- The distinguishable error outcomes of the embedded functions. Each
constructor stands for one `errors.New`/`fmt.Errorf` site (or for an error
propagated unchanged from a collaborator). -/
inductive VErr where
  | trackerLookup
  | findBatch
  | noInitialState
  | batchNotFoundOnL1
  | msgCountTooLow (batch msgCount count : Nat)
  | batchStartsAfter (batch first count : Nat)
  | streamerMsg
  | streamerResult
  | positionFailed
  | readerFailed
  | daRecover
  | batchNotFound (batch : Nat)
  | pastBatchesFailed
  | postedBatchNotFound (batch : Nat)
  | nilFullBatchInfo
  | wrongBatch (expected got : Nat)
  | illegalDelayed (got prev : Nat)
  | wrongStage (s : ValidationEntryStage)
  | recorderFailed
  | recordingHashMismatch (pos expected got : Nat)
  | delayedMsgReadFailed
  | notReady
  | stylusRequired
  | archNotSupported
  | notSupported (moduleRoot : Nat)
deriving DecidableEq, Repr

/-- Model of the `InboxTrackerInterface` collaborator. A `none` result
models a non-nil Go error return. -/
structure InboxTrackerModel where
  GetBatchMessageCount : Nat → Option Nat
  GetBatchCount : Option Nat
  FindInboxBatchContainingMessage : Nat → Option (Nat × Bool)
  GetDelayedMessageBytes : Nat → Option Bytes

/-- Model of the `InboxReaderInterface` collaborator:
`GetSequencerMessageBytes` yields the posted data and its block hash. -/
structure InboxReaderModel where
  GetSequencerMessageBytes : Nat → Option (Bytes × Nat)

/-- Model of the `TransactionStreamerInterface` collaborator. -/
structure StreamerModel where
  GetMessage : Nat → Option MessageWithMetadata
  ResultAtMessageIndex : Nat → Option MessageResult
  ChainConfig : ChainConfigModel

/-- Result of `execution.RecordResult` as consumed by
`ValidationEntryRecord`: the recomputed block hash, the optional keccak
preimage map, and the recorded user WASMs. -/
structure RecordResult where
  BlockHash : Nat
  Preimages : Option (List (Nat × Bytes))
  UserWasms : List (Nat × List (Nat × Bytes))
deriving DecidableEq, Repr

/-- Model of the `execution.ExecutionRecorder` collaborator. -/
structure RecorderModel where
  RecordBlockCreation : Nat → Option MessageWithMetadata → Option RecordResult

/-- Error classes of `daprovider.Reader.RecoverPayloadFromBatch`:
`seqMsgValidation` models an error whose text contains
`daprovider.ErrSeqMsgValidation`, `other` models any other error. -/
inductive DARecoverErrKind where
  | seqMsgValidation
  | other
deriving DecidableEq, Repr

/-- Model of the `daprovider.Reader` collaborator. -/
structure DAReaderModel where
  IsValidHeaderByte : Nat → Bool
  RecoverPayloadFromBatch : Nat → Nat → Bytes → PreimagesMap →
    Except DARecoverErrKind (Bytes × PreimagesMap)

/-- The helper `lookupFirstInBatch` mirrors lines 93-99 of the source: for
`batch > 0` the first message index of the batch is the message count of
the previous batch, for batch 0 it is 0 without any tracker call. -/
def lookupFirstInBatch (tracker : InboxTrackerModel) (batch : Nat) : Option Nat :=
  if batch > 0 then tracker.GetBatchMessageCount (batch - 1) else some 0

/-- Embedding of the package-level function `GlobalStatePositionsAtCount`
(source lines 84-112): the global-state positions before and after
processing the message at the given count, within the given batch. -/
def GlobalStatePositionsAtCount (tracker : InboxTrackerModel) (count batch : Nat) :
    Except VErr (GlobalStatePosition × GlobalStatePosition) :=
  match tracker.GetBatchMessageCount batch with
  | none => .error .trackerLookup
  | some msgCountInBatch =>
    match lookupFirstInBatch tracker batch with
    | none => .error .trackerLookup
    | some firstInBatch =>
      if msgCountInBatch < count then
        .error (.msgCountTooLow batch msgCountInBatch count)
      else if firstInBatch ≥ count then
        .error (.batchStartsAfter batch firstInBatch count)
      else
        let posInBatch := count - firstInBatch - 1
        let startPos : GlobalStatePosition := ⟨batch, posInBatch⟩
        if msgCountInBatch = count then
          .ok (startPos, ⟨(batch + 1) % U64, 0⟩)
        else
          .ok (startPos, ⟨batch, (posInBatch + 1) % U64⟩)

/-- Abbreviation for the package-level `GlobalStatePositionsAtCount`, used
inside the method of the same name where the method shadows it. -/
abbrev GSPAC := @GlobalStatePositionsAtCount

/-- Go struct `validationEntry` (source lines 129-146). The transient
pointer field `msg` is an `Option`; nil slices and maps are `[]`. -/
structure validationEntry where
  Stage : ValidationEntryStage
  Pos : Nat
  Start : GoGlobalState
  End : GoGlobalState
  HasDelayedMsg : Bool
  DelayedMsgNr : Nat
  ChainConfig : ChainConfigModel
  msg : Option MessageWithMetadata
  BatchInfo : List BatchInfo
  Preimages : PreimagesMap
  UserWasms : List (Nat × List (Nat × Bytes))
  DelayedMsg : Bytes
deriving DecidableEq, Repr

/-- Go struct `validator.ValidationInput`. `UserWasms` is keyed by WASM
target (`ethdb.WasmTarget`, modelled as `Nat`), then by code hash. -/
structure ValidationInput where
  Id : Nat
  HasDelayedMsg : Bool
  DelayedMsgNr : Nat
  Preimages : PreimagesMap
  UserWasms : List (Nat × List (Nat × Bytes))
  BatchInfo : List BatchInfo
  DelayedMsg : Bytes
  StartState : GoGlobalState
  DebugChain : Bool
deriving DecidableEq, Repr

/-- Model of `validator.ValidationRun`: `Await` yields the observed global
state together with a flag recording whether `Await` returned an error. -/
structure RunModel where
  Await : GoGlobalState × Bool
deriving DecidableEq, Repr

/-- Model of an execution spawner (`validator.ExecutionSpawner`, and the
same shape for the optional Redis validation client). `SupportsModule`
models `validator.SpawnerSupportsModule(spawner, moduleRoot)`. -/
structure SpawnerModel where
  StylusArchs : List Nat
  SupportsModule : Nat → Bool
  Launch : ValidationInput → Nat → RunModel

/-- Model of `StatelessBlockValidator`: the collaborator surfaces reached
from the functions under verification. `IsDASMessageHeaderByte` carries
the external predicate `daprovider.IsDASMessageHeaderByte`, which is not
part of this repository; it is kept abstract as a model field. -/
structure StatelessBlockValidatorModel where
  execSpawners : List SpawnerModel
  redisValidator : Option SpawnerModel
  recorder : RecorderModel
  inboxReader : InboxReaderModel
  inboxTracker : InboxTrackerModel
  streamer : StreamerModel
  dapReaders : List DAReaderModel
  IsDASMessageHeaderByte : Nat → Bool

/-- Inner loop of `ToInput` for one target: collect, for every recorded
code hash, the compiled bytes for that target; any hash lacking the target
aborts (source lines 169-177, with the hash/target loop order flattened
per target — the success value and the error condition coincide). -/
def collectArch (arch : Nat) : List (Nat × List (Nat × Bytes)) → Option (List (Nat × Bytes))
  | [] => some []
  | (h, asmMap) :: rest =>
    match mapFind arch asmMap with
    | none => none
    | some asm =>
      match collectArch arch rest with
      | none => none
      | some m => some ((h, asm) :: m)

/-- Materialize the per-target user-WASM maps of `ToInput` for every
requested target (source lines 166-177). -/
def collectUserWasms : List Nat → List (Nat × List (Nat × Bytes)) →
    Option (List (Nat × List (Nat × Bytes)))
  | [], _ => some []
  | a :: rest, uw =>
    match collectArch a uw with
    | none => none
    | some m =>
      match collectUserWasms rest uw with
      | none => none
      | some l => some ((a, m) :: l)

/-- Embedding of the method `validationEntry.ToInput` (source lines
148-179). -/
def validationEntry.ToInput (e : validationEntry) (stylusArchs : List Nat) :
    Except VErr ValidationInput :=
  if e.Stage ≠ .Ready then .error .notReady
  else if stylusArchs = [] ∧ e.UserWasms ≠ [] then .error .stylusRequired
  else
    match collectUserWasms stylusArchs e.UserWasms with
    | none => .error .archNotSupported
    | some uw =>
      .ok { Id := e.Pos
            HasDelayedMsg := e.HasDelayedMsg
            DelayedMsgNr := e.DelayedMsgNr
            Preimages := e.Preimages
            UserWasms := uw
            BatchInfo := e.BatchInfo
            DelayedMsg := e.DelayedMsg
            StartState := e.Start
            DebugChain := e.ChainConfig.DebugMode }

/-- Embedding of `copyPreimagesInto` (source lines 360-369): deep merge of
a nested preimage map into a destination map, later writes overwriting. -/
def copyPreimagesInto (dest source : PreimagesMap) : PreimagesMap :=
  source.foldl
    (fun d ptm =>
      let inner := (mapFind ptm.1 d).getD []
      mapInsert ptm.1 (ptm.2.foldl (fun im hv => mapInsert hv.1 hv.2 im) inner) d)
    dest

/-- Embedding of `newValidationEntry` (source lines 181-229). The Go
`end` parameter is renamed `endState` (`end` is reserved in Lean); the
`prevDelayed + 1` comparison is a wrapping `uint64` addition. -/
def newValidationEntry (pos : Nat) (start endState : GoGlobalState)
    (msg : MessageWithMetadata) (fullBatchInfo : Option FullBatchInfo)
    (prevBatches : List BatchInfo) (prevDelayed : Nat)
    (chainConfig : ChainConfigModel) : Except VErr validationEntry :=
  match fullBatchInfo with
  | none => .error .nilFullBatchInfo
  | some fbi =>
    if fbi.Number ≠ start.Batch then .error (.wrongBatch start.Batch fbi.Number)
    else
      let valBatches : List BatchInfo := ⟨fbi.Number, fbi.PostedData⟩ :: prevBatches
      let preimages := copyPreimagesInto [] fbi.Preimages
      if msg.DelayedMessagesRead = (prevDelayed + 1) % U64 then
        .ok { Stage := .ReadyForRecord
              Pos := pos
              Start := start
              End := endState
              HasDelayedMsg := true
              DelayedMsgNr := prevDelayed
              ChainConfig := chainConfig
              msg := some msg
              BatchInfo := valBatches
              Preimages := preimages
              UserWasms := []
              DelayedMsg := [] }
      else if msg.DelayedMessagesRead ≠ prevDelayed then
        .error (.illegalDelayed msg.DelayedMessagesRead prevDelayed)
      else
        .ok { Stage := .ReadyForRecord
              Pos := pos
              Start := start
              End := endState
              HasDelayedMsg := false
              DelayedMsgNr := 0
              ChainConfig := chainConfig
              msg := some msg
              BatchInfo := valBatches
              Preimages := preimages
              UserWasms := []
              DelayedMsg := [] }

/-- Embedding of the method `StatelessBlockValidator.readPostedBatch`
(source lines 286-296). -/
def StatelessBlockValidatorModel.readPostedBatch
    (v : StatelessBlockValidatorModel) (batchNum : Nat) : Except VErr Bytes :=
  match v.inboxTracker.GetBatchCount with
  | none => .error .trackerLookup
  | some batchCount =>
    if batchCount ≤ batchNum then .error (.postedBatchNotFound batchNum)
    else
      match v.inboxReader.GetSequencerMessageBytes batchNum with
      | none => .error .readerFailed
      | some (postedData, _) => .ok postedData

/-- Data-availability recovery loop of `readFullBatch` (source lines
323-350): the first reader recognizing the header byte `postedData[40]`
recovers the preimages; a sequencer-message-validation error on a legacy
DAS header is logged and tolerated, any other error surfaces. Returns the
`foundDA` flag and the resulting preimage map. -/
def recoverPayloadLoop (v : StatelessBlockValidatorModel)
    (batchNum batchBlockHash : Nat) (postedData : Bytes) :
    List DAReaderModel → Except VErr (Bool × PreimagesMap)
  | [] => .ok (false, [])
  | r :: rest =>
    if r.IsValidHeaderByte (postedData.getD 40 0) then
      match r.RecoverPayloadFromBatch batchNum batchBlockHash postedData [] with
      | .error .seqMsgValidation =>
        if v.IsDASMessageHeaderByte (postedData.getD 40 0) then .ok (true, [])
        else .error .daRecover
      | .error .other => .error .daRecover
      | .ok (_, preimagesRecorded) => .ok (true, preimagesRecorded)
    else recoverPayloadLoop v batchNum batchBlockHash postedData rest

/-- Embedding of the method `StatelessBlockValidator.readFullBatch`
(source lines 306-358). -/
def StatelessBlockValidatorModel.readFullBatch
    (v : StatelessBlockValidatorModel) (batchNum : Nat) :
    Except VErr (Bool × Option FullBatchInfo) :=
  match v.inboxTracker.GetBatchCount with
  | none => .error .trackerLookup
  | some batchCount =>
    if batchCount ≤ batchNum then .ok (false, none)
    else
      match v.inboxTracker.GetBatchMessageCount batchNum with
      | none => .error .trackerLookup
      | some batchMsgCount =>
        match v.inboxReader.GetSequencerMessageBytes batchNum with
        | none => .error .readerFailed
        | some (postedData, batchBlockHash) =>
          match (if postedData.length > 40
                 then recoverPayloadLoop v batchNum batchBlockHash postedData v.dapReaders
                 else .ok (false, [])) with
          | .error err => .error err
          | .ok (_, preimages) =>
            .ok (true, some ⟨batchNum, postedData, batchMsgCount, preimages⟩)

/-- Embedding of the method `StatelessBlockValidator.ValidationEntryRecord`
(source lines 371-405). The in-place mutation of the Go entry is modelled
by returning the updated entry; an error return leaves the input entry
untouched, exactly as the Go method performs no field writes before any of
its error returns. -/
def StatelessBlockValidatorModel.ValidationEntryRecord
    (v : StatelessBlockValidatorModel) (e : validationEntry) :
    Except VErr validationEntry :=
  if e.Stage ≠ .ReadyForRecord then .error (.wrongStage e.Stage)
  else
    match (if e.Pos ≠ 0 then
             match v.recorder.RecordBlockCreation e.Pos e.msg with
             | none => .error .recorderFailed
             | some recording =>
               if recording.BlockHash ≠ e.End.BlockHash then
                 .error (.recordingHashMismatch e.Pos e.End.BlockHash recording.BlockHash)
               else
                 .ok { e with
                       Preimages :=
                         match recording.Preimages with
                         | some rp => copyPreimagesInto e.Preimages [(Keccak256PreimageType, rp)]
                         | none => e.Preimages
                       UserWasms := recording.UserWasms }
           else .ok e : Except VErr validationEntry) with
    | .error err => .error err
    | .ok e1 =>
      match (if e1.HasDelayedMsg then
               match v.inboxTracker.GetDelayedMessageBytes e1.DelayedMsgNr with
               | none => .error .delayedMsgReadFailed
               | some delayedMsg => .ok { e1 with DelayedMsg := delayedMsg }
             else .ok e1 : Except VErr validationEntry) with
      | .error err => .error err
      | .ok e2 => .ok { e2 with msg := none, Stage := .Ready }

/-- Embedding of `BuildGlobalState` (source lines 407-414). -/
def BuildGlobalState (res : MessageResult) (pos : GlobalStatePosition) : GoGlobalState :=
  ⟨res.BlockHash, res.SendRoot, pos.BatchNumber, pos.PosInBatch⟩

/-- Embedding of the method
`StatelessBlockValidator.GlobalStatePositionsAtCount` (source lines
417-432): the higher-level position operation. -/
def StatelessBlockValidatorModel.GlobalStatePositionsAtCount
    (v : StatelessBlockValidatorModel) (count : Nat) :
    Except VErr (GlobalStatePosition × GlobalStatePosition) :=
  if count = 0 then .error .noInitialState
  else if count = 1 then .ok (⟨0, 0⟩, ⟨1, 0⟩)
  else
    match v.inboxTracker.FindInboxBatchContainingMessage (count - 1) with
    | none => .error .findBatch
    | some (batch, found) =>
      if found = false then .error .batchNotFoundOnL1
      else GSPAC v.inboxTracker count batch

/-- Fetch of the historical batches required by a message (loop at source
lines 475-485), in order. -/
def readPrevBatches (v : StatelessBlockValidatorModel) :
    List Nat → Except VErr (List BatchInfo)
  | [] => .ok []
  | n :: rest =>
    match v.readPostedBatch n with
    | .error err => .error err
    | .ok data =>
      match readPrevBatches v rest with
      | .error err => .error err
      | .ok more => .ok (⟨n, data⟩ :: more)

/-- Embedding of the method
`StatelessBlockValidator.CreateReadyValidationEntry` (source lines
434-496). -/
def StatelessBlockValidatorModel.CreateReadyValidationEntry
    (v : StatelessBlockValidatorModel) (pos : Nat) : Except VErr validationEntry :=
  match v.streamer.GetMessage pos with
  | none => .error .streamerMsg
  | some msg =>
    match v.streamer.ResultAtMessageIndex pos with
    | none => .error .streamerResult
    | some result =>
      match (if pos > 0 then
               match v.streamer.GetMessage (pos - 1) with
               | none => .error .streamerMsg
               | some prev =>
                 match v.streamer.ResultAtMessageIndex (pos - 1) with
                 | none => .error .streamerResult
                 | some prevResult => .ok (prev.DelayedMessagesRead, prevResult)
             else .ok (0, ⟨0, 0⟩) : Except VErr (Nat × MessageResult)) with
      | .error err => .error err
      | .ok (prevDelayed, prevResult) =>
        match v.GlobalStatePositionsAtCount ((pos + 1) % U64) with
        | .error _ => .error .positionFailed
        | .ok (startPos, endPos) =>
          let start := BuildGlobalState prevResult startPos
          let endState := BuildGlobalState result endPos
          match v.readFullBatch start.Batch with
          | .error err => .error err
          | .ok (found, fullBatchInfo) =>
            if found = false then .error (.batchNotFound startPos.BatchNumber)
            else
              match msg.PastBatchesRequired with
              | none => .error .pastBatchesFailed
              | some prevBatchNums =>
                match readPrevBatches v prevBatchNums with
                | .error err => .error err
                | .ok prevBatches =>
                  match newValidationEntry pos start endState msg fullBatchInfo
                        prevBatches prevDelayed v.streamer.ChainConfig with
                  | .error err => .error err
                  | .ok entry => v.ValidationEntryRecord entry

/-- Scan of the execution spawners in `ValidateResult` (source lines
517-528): the first spawner supporting the module root converts the entry
and launches a run; a conversion failure surfaces. -/
def launchFirstSpawner : List SpawnerModel → Nat → validationEntry →
    Except VErr (Option RunModel)
  | [], _, _ => .ok none
  | s :: rest, moduleRoot, entry =>
    if s.SupportsModule moduleRoot then
      match entry.ToInput s.StylusArchs with
      | .error err => .error err
      | .ok input => .ok (some (s.Launch input moduleRoot))
    else launchFirstSpawner rest moduleRoot entry

/-- Run-selection portion of `ValidateResult` (source lines 505-528): the
Redis validator is preferred when `useExec` is unset, then the execution
spawners are scanned. -/
def StatelessBlockValidatorModel.launchRun (v : StatelessBlockValidatorModel)
    (useExec : Bool) (moduleRoot : Nat) (entry : validationEntry) :
    Except VErr (Option RunModel) :=
  match (if useExec = false then
           match v.redisValidator with
           | some rv =>
             if rv.SupportsModule moduleRoot then
               match entry.ToInput rv.StylusArchs with
               | .error err => .error err
               | .ok input => .ok (some (rv.Launch input moduleRoot))
             else .ok none
           | none => .ok none
         else .ok none : Except VErr (Option RunModel)) with
  | .error err => .error err
  | .ok (some run) => .ok (some run)
  | .ok none => launchFirstSpawner v.execSpawners moduleRoot entry

/-- Embedding of the method `StatelessBlockValidator.ValidateResult`
(source lines 498-538). The Go return `(bool, *GoGlobalState, error)` on
the await path is modelled as `(agreed, observed state, await errored)`;
errors before a run is awaited are `Except.error`. -/
def StatelessBlockValidatorModel.ValidateResult (v : StatelessBlockValidatorModel)
    (pos : Nat) (useExec : Bool) (moduleRoot : Nat) :
    Except VErr (Bool × GoGlobalState × Bool) :=
  match v.CreateReadyValidationEntry pos with
  | .error err => .error err
  | .ok entry =>
    match v.launchRun useExec moduleRoot entry with
    | .error err => .error err
    | .ok none => .error (.notSupported moduleRoot)
    | .ok (some run) =>
      match run.Await with
      | (gsEnd, true) => .ok (false, gsEnd, true)
      | (gsEnd, false) =>
        if gsEnd ≠ entry.End then .ok (false, gsEnd, false)
        else .ok (true, entry.End, false)

/-- Concrete tracker fixture: batch 0 holds messages `[0,3)`, batch 1
holds `[3,5)` (the batch-straddle scenario of the specification). -/
def T1tracker : InboxTrackerModel :=
  { GetBatchMessageCount := fun b => if b = 0 then some 3 else if b = 1 then some 5 else none
    GetBatchCount := some 2
    FindInboxBatchContainingMessage := fun p =>
      if p < 3 then some (0, true) else if p < 5 then some (1, true) else some (0, false)
    GetDelayedMessageBytes := fun _ => none }

/-- Streamer fixture whose lookups all fail. -/
def dummyStreamer : StreamerModel :=
  { GetMessage := fun _ => none
    ResultAtMessageIndex := fun _ => none
    ChainConfig := ⟨false⟩ }

/-- Recorder fixture whose recording always fails. -/
def dummyRecorder : RecorderModel := { RecordBlockCreation := fun _ _ => none }

/-- Inbox-reader fixture whose lookups all fail. -/
def dummyInboxReader : InboxReaderModel := { GetSequencerMessageBytes := fun _ => none }

/-- Validator fixture built over `T1tracker`, with inert collaborators. -/
def T2model : StatelessBlockValidatorModel :=
  { execSpawners := []
    redisValidator := none
    recorder := dummyRecorder
    inboxReader := dummyInboxReader
    inboxTracker := T1tracker
    streamer := dummyStreamer
    dapReaders := []
    IsDASMessageHeaderByte := fun _ => false }



/-- Boolean error discriminator for `Except` results. -/
def isError {ε α : Type} : Except ε α → Bool
  | .error _ => true
  | .ok _ => false

/-- Helper: whenever the package-level `GlobalStatePositionsAtCount`
succeeds, the returned start position carries the supplied batch number. -/
theorem gspacOkStartBatch (tracker : InboxTrackerModel) (count batch : Nat)
    (s e : GlobalStatePosition)
    (h : GlobalStatePositionsAtCount tracker count batch = .ok (s, e)) :
    s.BatchNumber = batch := by
  unfold GlobalStatePositionsAtCount at h
  cases hm : tracker.GetBatchMessageCount batch with
  | none => simp only [hm] at h; exact Except.noConfusion h
  | some m =>
    cases hf : lookupFirstInBatch tracker batch with
    | none => simp only [hm, hf] at h; exact Except.noConfusion h
    | some f =>
      simp only [hm, hf] at h
      by_cases h1 : m < count
      · simp only [if_pos h1] at h; exact Except.noConfusion h
      · simp only [if_neg h1] at h
        by_cases hge : f ≥ count
        · simp only [if_pos hge] at h; exact Except.noConfusion h
        · simp only [if_neg hge] at h
          by_cases hEq : m = count
          · simp only [if_pos hEq, Except.ok.injEq, Prod.mk.injEq] at h
            rw [← h.1]
          · simp only [if_neg hEq, Except.ok.injEq, Prod.mk.injEq] at h
            rw [← h.1]

/-- Claim C1: under successful lookups with `msgCountInBatch ≥ count` and
`firstInBatch < count` (the latter being 0 for batch 0), the function
returns `start = (batch, count - firstInBatch - 1)` and, exactly when
`msgCountInBatch = count`, the rollover `end = (batch+1, 0)`, otherwise
`end = (batch, posInBatch + 1)`. The bounds `count < 2^64` and
`batch + 1 < 2^64` state that the values fit `uint64` without wrapping. -/
theorem globalStatePositionsAtCount_formula
    (tracker : InboxTrackerModel) (count batch msgCountInBatch firstInBatch : Nat)
    (hcount : count < U64) (hbatch : batch + 1 < U64)
    (hmsg : tracker.GetBatchMessageCount batch = some msgCountInBatch)
    (hfirst : lookupFirstInBatch tracker batch = some firstInBatch)
    (hcover : count ≤ msgCountInBatch) (hstart : firstInBatch < count) :
    GlobalStatePositionsAtCount tracker count batch =
      .ok (⟨batch, count - firstInBatch - 1⟩,
           if msgCountInBatch = count then ⟨batch + 1, 0⟩
           else ⟨batch, count - firstInBatch - 1 + 1⟩) := by
  have h1 : ¬ msgCountInBatch < count := Nat.not_lt.mpr hcover
  have h2 : ¬ firstInBatch ≥ count := Nat.not_le.mpr hstart
  by_cases hEq : msgCountInBatch = count
  · simp only [GlobalStatePositionsAtCount, hmsg, hfirst, if_neg h1, if_neg h2,
      if_pos hEq, Nat.mod_eq_of_lt hbatch]
  · simp only [GlobalStatePositionsAtCount, hmsg, hfirst, if_neg h1, if_neg h2,
      if_neg hEq, Nat.mod_eq_of_lt (show count - firstInBatch - 1 + 1 < U64 by omega)]

/-- Witness for claim C1: the batch-straddle fixture, last message of
batch 0. -/
theorem globalStatePositionsAtCount_formula_witness :
    GlobalStatePositionsAtCount T1tracker 3 0 = .ok (⟨0, 2⟩, ⟨1, 0⟩) :=
  (globalStatePositionsAtCount_formula T1tracker 3 0 3 0 (by decide) (by decide)
    rfl rfl (by decide) (by decide)).trans (by decide)

/-- Claim C9: the package-level `GlobalStatePositionsAtCount` fails
exactly when a batch-message-count lookup fails, or the looked-up
`msgCountInBatch` is below `count`, or the first message index of the
batch (0 for batch 0) is at least `count`; under no other condition does
it return an error. -/
theorem globalStatePositionsAtCount_err_iff
    (tracker : InboxTrackerModel) (count batch : Nat) :
    isError (GlobalStatePositionsAtCount tracker count batch) = true ↔
      tracker.GetBatchMessageCount batch = none ∨
      lookupFirstInBatch tracker batch = none ∨
      (∃ msgCountInBatch firstInBatch,
        tracker.GetBatchMessageCount batch = some msgCountInBatch ∧
        lookupFirstInBatch tracker batch = some firstInBatch ∧
        (msgCountInBatch < count ∨ firstInBatch ≥ count)) := by
  cases hm : tracker.GetBatchMessageCount batch with
  | none => simp [GlobalStatePositionsAtCount, hm, isError]
  | some m =>
    cases hf : lookupFirstInBatch tracker batch with
    | none => simp [GlobalStatePositionsAtCount, hm, hf, isError]
    | some f =>
      by_cases h1 : m < count
      · simp [GlobalStatePositionsAtCount, hm, hf, h1, isError]
      · by_cases hge : f ≥ count
        · simp [GlobalStatePositionsAtCount, hm, hf, h1, hge, isError]
        · by_cases hEq : m = count
          · simp [GlobalStatePositionsAtCount, hm, hf, h1, hge, hEq, isError]
          · simp [GlobalStatePositionsAtCount, hm, hf, h1, hge, hEq, isError]

/-- Claim C3: the higher-level position operation fails with the
no-initial-state error at count 0 and returns `((0,0),(1,0))` at count 1,
for every validator model (hence for every tracker content). -/
theorem validatorPositions_boundary (v : StatelessBlockValidatorModel) :
    v.GlobalStatePositionsAtCount 0 = .error .noInitialState ∧
    v.GlobalStatePositionsAtCount 1 = .ok (⟨0, 0⟩, ⟨1, 0⟩) :=
  ⟨rfl, rfl⟩

/-- Claim C10: at count 1 the higher-level position operation performs no
tracker interaction: any two validator models — including ones whose
every tracker lookup fails — give the identical error-free result. -/
theorem validatorPositions_countOne_trackerFree
    (v w : StatelessBlockValidatorModel) :
    v.GlobalStatePositionsAtCount 1 = w.GlobalStatePositionsAtCount 1 ∧
    v.GlobalStatePositionsAtCount 1 = .ok (⟨0, 0⟩, ⟨1, 0⟩) :=
  ⟨rfl, rfl⟩

/-- Counterexample for claim C2 as stated: over the batch-straddle
tracker, re-invoking the package-level function with `count = pos + 1`
does not reproduce `positionsForMessage(pos)`: at `pos = 2` (whose
containing batch is found) the higher-level operation yields
`((0,1),(0,2))` while the `pos+1` re-invocation yields `((0,2),(1,0))`. -/
theorem validatorPositions_recompute_cex :
    T2model.GlobalStatePositionsAtCount 2 = .ok (⟨0, 1⟩, ⟨0, 2⟩) ∧
    GlobalStatePositionsAtCount T2model.inboxTracker (2 + 1) 0 = .ok (⟨0, 2⟩, ⟨1, 0⟩) ∧
    GlobalStatePositionsAtCount T2model.inboxTracker (2 + 1) 0 ≠
      T2model.GlobalStatePositionsAtCount 2 :=
  ⟨by decide, by decide, by decide⟩

/-- Claim C2 (amended): for `pos ≥ 2`, the higher-level operation locates
the batch containing message `pos - 1` and delegates to the package-level
function with the same count `pos`; hence re-invoking the package-level
function with count `pos` at the returned start batch reproduces the
`(start, end)` pair. -/
theorem validatorPositions_recompute
    (v : StatelessBlockValidatorModel) (pos batch : Nat)
    (s e : GlobalStatePosition) (h2 : 2 ≤ pos) :
    (v.inboxTracker.FindInboxBatchContainingMessage (pos - 1) = some (batch, true) →
      v.GlobalStatePositionsAtCount pos =
        GlobalStatePositionsAtCount v.inboxTracker pos batch) ∧
    (v.GlobalStatePositionsAtCount pos = .ok (s, e) →
      GlobalStatePositionsAtCount v.inboxTracker pos s.BatchNumber = .ok (s, e)) := by
  have hne0 : pos ≠ 0 := by omega
  have hne1 : pos ≠ 1 := by omega
  constructor
  · intro hfind
    unfold StatelessBlockValidatorModel.GlobalStatePositionsAtCount
    rw [if_neg hne0, if_neg hne1, hfind]
    rfl
  · intro hok
    unfold StatelessBlockValidatorModel.GlobalStatePositionsAtCount at hok
    rw [if_neg hne0, if_neg hne1] at hok
    split at hok
    · exact Except.noConfusion hok
    · split at hok
      · exact Except.noConfusion hok
      · rename_i heq
        have hb := gspacOkStartBatch v.inboxTracker pos _ s e hok
        rw [hb]
        exact hok

/-- Witness for claim C2 (amended): the batch-straddle fixture at
`pos = 2`. -/
theorem validatorPositions_recompute_witness :
    GlobalStatePositionsAtCount T2model.inboxTracker 2 0 = .ok (⟨0, 1⟩, ⟨0, 2⟩) :=
  (validatorPositions_recompute T2model 2 0 ⟨0, 1⟩ ⟨0, 2⟩ (by decide)).2 (by decide)

/-- Start-state fixture anchored in batch 7. -/
def gsW : GoGlobalState := ⟨11, 12, 7, 0⟩

/-- End-state fixture. -/
def gsW2 : GoGlobalState := ⟨13, 14, 7, 1⟩

/-- Message fixture that consumes one delayed message above 4. -/
def msgW : MessageWithMetadata := ⟨5, some []⟩

/-- Full-batch fixture matching `gsW`. -/
def fbiW : FullBatchInfo := ⟨7, [1, 2], 9, []⟩

/-- Full-batch fixture whose number disagrees with `gsW`. -/
def fbiBad : FullBatchInfo := ⟨8, [], 9, []⟩

/-- Chain-config fixture. -/
def ccW : ChainConfigModel := ⟨false⟩

/-- Claim C6: delayed-message bookkeeping of `newValidationEntry` past the
batch-consistency checks: reading `prevDelayed + 1` delayed messages sets
`hasDelayedMsg` with `delayedMsgNr = prevDelayed`, reading `prevDelayed`
sets no delayed message, and any other reading is the illegal-delayed
error. The bound keeps the `uint64` increment from wrapping. -/
theorem newValidationEntry_delayed
    (pos : Nat) (start endState : GoGlobalState) (msg : MessageWithMetadata)
    (fbi : FullBatchInfo) (prevBatches : List BatchInfo) (prevDelayed : Nat)
    (cc : ChainConfigModel)
    (hnum : fbi.Number = start.Batch) (hnw : prevDelayed + 1 < U64) :
    (msg.DelayedMessagesRead = prevDelayed + 1 →
      ∃ entry, newValidationEntry pos start endState msg (some fbi) prevBatches prevDelayed cc
          = .ok entry ∧ entry.HasDelayedMsg = true ∧ entry.DelayedMsgNr = prevDelayed) ∧
    (msg.DelayedMessagesRead = prevDelayed →
      ∃ entry, newValidationEntry pos start endState msg (some fbi) prevBatches prevDelayed cc
          = .ok entry ∧ entry.HasDelayedMsg = false) ∧
    (msg.DelayedMessagesRead ≠ prevDelayed + 1 → msg.DelayedMessagesRead ≠ prevDelayed →
      newValidationEntry pos start endState msg (some fbi) prevBatches prevDelayed cc
          = .error (.illegalDelayed msg.DelayedMessagesRead prevDelayed)) := by
  have hnum' : ¬ fbi.Number ≠ start.Batch := by simp [hnum]
  have hmod : (prevDelayed + 1) % U64 = prevDelayed + 1 := Nat.mod_eq_of_lt hnw
  refine ⟨?_, ?_, ?_⟩
  · intro hd
    have heq : newValidationEntry pos start endState msg (some fbi) prevBatches prevDelayed cc
        = .ok { Stage := .ReadyForRecord, Pos := pos, Start := start, End := endState,
                HasDelayedMsg := true, DelayedMsgNr := prevDelayed, ChainConfig := cc,
                msg := some msg, BatchInfo := ⟨fbi.Number, fbi.PostedData⟩ :: prevBatches,
                Preimages := copyPreimagesInto [] fbi.Preimages,
                UserWasms := [], DelayedMsg := [] } := by
      simp only [newValidationEntry, if_neg hnum', hmod, if_pos hd]
    exact ⟨_, heq, rfl, rfl⟩
  · intro hd
    have hd1 : ¬ msg.DelayedMessagesRead = prevDelayed + 1 := by omega
    have hd2 : ¬ msg.DelayedMessagesRead ≠ prevDelayed := by simp [hd]
    have heq : newValidationEntry pos start endState msg (some fbi) prevBatches prevDelayed cc
        = .ok { Stage := .ReadyForRecord, Pos := pos, Start := start, End := endState,
                HasDelayedMsg := false, DelayedMsgNr := 0, ChainConfig := cc,
                msg := some msg, BatchInfo := ⟨fbi.Number, fbi.PostedData⟩ :: prevBatches,
                Preimages := copyPreimagesInto [] fbi.Preimages,
                UserWasms := [], DelayedMsg := [] } := by
      simp only [newValidationEntry, if_neg hnum', hmod, if_neg hd1, if_neg hd2]
    exact ⟨_, heq, rfl⟩
  · intro hd1 hd2
    simp only [newValidationEntry, if_neg hnum', hmod, if_neg hd1, if_pos hd2]

/-- Witness for claim C6: `prevDelayed = 4` and a message reading 5
delayed messages yields a delayed-carrying entry. -/
theorem newValidationEntry_delayed_witness :
    ∃ entry, newValidationEntry 3 gsW gsW2 msgW (some fbiW) [] 4 ccW = .ok entry ∧
        entry.HasDelayedMsg = true ∧ entry.DelayedMsgNr = 4 :=
  (newValidationEntry_delayed 3 gsW gsW2 msgW fbiW [] 4 ccW rfl (by decide)).1 rfl

/-- Claim C8: `newValidationEntry` rejects an absent `fullBatchInfo` and a
`fullBatchInfo` numbered differently from `start.Batch`; a successfully
constructed entry is in stage ReadyForRecord and its batch info is the
containing batch (number and posted data) followed by the previous
batches, so its head is numbered `start.Batch`. -/
theorem newValidationEntry_batchInfo
    (pos : Nat) (start endState : GoGlobalState) (msg : MessageWithMetadata)
    (prevBatches : List BatchInfo) (prevDelayed : Nat) (cc : ChainConfigModel) :
    (newValidationEntry pos start endState msg none prevBatches prevDelayed cc
        = .error .nilFullBatchInfo) ∧
    (∀ fbi : FullBatchInfo, fbi.Number ≠ start.Batch →
      newValidationEntry pos start endState msg (some fbi) prevBatches prevDelayed cc
        = .error (.wrongBatch start.Batch fbi.Number)) ∧
    (∀ (fbi : FullBatchInfo) (entry : validationEntry),
      newValidationEntry pos start endState msg (some fbi) prevBatches prevDelayed cc
        = .ok entry →
      entry.Stage = .ReadyForRecord ∧
      entry.BatchInfo = ⟨fbi.Number, fbi.PostedData⟩ :: prevBatches ∧
      entry.BatchInfo.head?.map (fun bi => bi.Number) = some start.Batch) := by
  refine ⟨rfl, ?_, ?_⟩
  · intro fbi hne
    simp only [newValidationEntry, if_pos hne]
  · intro fbi entry h
    simp only [newValidationEntry] at h
    by_cases hne : fbi.Number ≠ start.Batch
    · rw [if_pos hne] at h; exact Except.noConfusion h
    · have hnum : fbi.Number = start.Batch := not_not.mp hne
      rw [if_neg hne] at h
      by_cases hd : msg.DelayedMessagesRead = (prevDelayed + 1) % U64
      · rw [if_pos hd] at h
        simp only [Except.ok.injEq] at h
        subst h
        exact ⟨rfl, rfl, by simp [hnum]⟩
      · rw [if_neg hd] at h
        by_cases hd2 : msg.DelayedMessagesRead ≠ prevDelayed
        · rw [if_pos hd2] at h; exact Except.noConfusion h
        · rw [if_neg hd2] at h
          simp only [Except.ok.injEq] at h
          subst h
          exact ⟨rfl, rfl, by simp [hnum]⟩

/-- Witness for claim C8: the nil-batch rejection and the wrong-number
rejection at concrete inputs. -/
theorem newValidationEntry_batchInfo_witness :
    newValidationEntry 3 gsW gsW2 msgW none [] 4 ccW = .error .nilFullBatchInfo ∧
    newValidationEntry 3 gsW gsW2 msgW (some fbiBad) [] 4 ccW
      = .error (.wrongBatch 7 8) :=
  ⟨(newValidationEntry_batchInfo 3 gsW gsW2 msgW [] 4 ccW).1,
   ((newValidationEntry_batchInfo 3 gsW gsW2 msgW [] 4 ccW).2.1 fbiBad (by decide)).trans
     (by decide)⟩

/-- Claim C4: `ValidationEntryRecord` requires stage ReadyForRecord; for a
nonzero position, a recorder block hash differing from the stored
post-state hash is the hash-mismatch error (so no Ready entry is
produced — the model is functional and the Go method performs no field
write before this error return); every successful result is in stage
Ready with the transient message reference cleared. -/
theorem validationEntryRecord_spec
    (v : StatelessBlockValidatorModel) (e : validationEntry) :
    (e.Stage ≠ .ReadyForRecord →
      v.ValidationEntryRecord e = .error (.wrongStage e.Stage)) ∧
    (∀ recording : RecordResult, e.Stage = .ReadyForRecord → e.Pos ≠ 0 →
      v.recorder.RecordBlockCreation e.Pos e.msg = some recording →
      recording.BlockHash ≠ e.End.BlockHash →
      v.ValidationEntryRecord e
        = .error (.recordingHashMismatch e.Pos e.End.BlockHash recording.BlockHash)) ∧
    (∀ e2 : validationEntry, v.ValidationEntryRecord e = .ok e2 →
      e2.Stage = .Ready ∧ e2.msg = none) := by
  refine ⟨?_, ?_, ?_⟩
  · intro h
    simp only [StatelessBlockValidatorModel.ValidationEntryRecord, if_pos h]
  · intro recording hstage hpos hrec hmis
    have hs' : ¬ e.Stage ≠ ValidationEntryStage.ReadyForRecord := by simp [hstage]
    simp only [StatelessBlockValidatorModel.ValidationEntryRecord, if_neg hs',
      if_pos hpos, hrec, if_pos hmis]
  · intro e2 h
    simp only [StatelessBlockValidatorModel.ValidationEntryRecord] at h
    by_cases hs : e.Stage ≠ ValidationEntryStage.ReadyForRecord
    · rw [if_pos hs] at h; exact Except.noConfusion h
    · rw [if_neg hs] at h
      split at h
      · exact Except.noConfusion h
      · split at h
        · exact Except.noConfusion h
        · simp only [Except.ok.injEq] at h
          subst h
          exact ⟨rfl, rfl⟩

/-- Entry fixture awaiting recording, with stored post-state hash 0xBB. -/
def E4 : validationEntry :=
  { Stage := .ReadyForRecord, Pos := 5, Start := gsW
    End := { gsW2 with BlockHash := 0xBB }
    HasDelayedMsg := false, DelayedMsgNr := 0, ChainConfig := ccW, msg := some msgW
    BatchInfo := [⟨7, [1, 2]⟩], Preimages := [], UserWasms := [], DelayedMsg := [] }

/-- Recorder result fixture with recomputed hash 0xAA. -/
def rec4 : RecordResult := ⟨0xAA, none, []⟩

/-- Validator fixture whose recorder always yields `rec4`. -/
def V4 : StatelessBlockValidatorModel := { T2model with recorder := ⟨fun _ _ => some rec4⟩ }

/-- Witness for claim C4: the recorder-mismatch scenario (recorder says
0xAA, entry post-state says 0xBB). -/
theorem validationEntryRecord_spec_witness :
    V4.ValidationEntryRecord E4 = .error (.recordingHashMismatch 5 0xBB 0xAA) :=
  (validationEntryRecord_spec V4 E4).2.1 rec4 rfl (by decide) rfl (by decide)

/-- Helper: a successful per-target collection is exactly the code-hash /
bytes pairs the entry recorded for that target. -/
theorem collectArch_some_eq (arch : Nat) (uw : List (Nat × List (Nat × Bytes)))
    (m : List (Nat × Bytes)) (h : collectArch arch uw = some m) :
    m = uw.filterMap (fun p => (mapFind arch p.2).map (fun asm => (p.1, asm))) := by
  induction uw generalizing m with
  | nil =>
    simp only [collectArch, Option.some.injEq] at h
    simp [← h]
  | cons hd tl ih =>
    obtain ⟨hh, hmap⟩ := hd
    simp only [collectArch] at h
    cases hfind : mapFind arch hmap with
    | none => rw [hfind] at h; exact Option.noConfusion h
    | some asm =>
      rw [hfind] at h
      cases hc : collectArch arch tl with
      | none => rw [hc] at h; exact Option.noConfusion h
      | some m' =>
        rw [hc] at h
        simp only [Option.some.injEq] at h
        subst h
        simp [List.filterMap_cons, hfind, ih m' hc]

/-- Helper: the per-target collection fails exactly when some recorded
code hash lacks compiled bytes for the target. -/
theorem collectArch_none_iff (arch : Nat) (uw : List (Nat × List (Nat × Bytes))) :
    collectArch arch uw = none ↔ ∃ p ∈ uw, mapFind arch p.2 = none := by
  induction uw with
  | nil => simp [collectArch]
  | cons hd tl ih =>
    obtain ⟨hh, hmap⟩ := hd
    simp only [collectArch]
    cases hfind : mapFind arch hmap with
    | none => simp [hfind]
    | some asm =>
      cases hc : collectArch arch tl with
      | none => simp [hfind, hc, ← ih]
      | some m' => simp [hfind, hc, ← ih]

/-- Helper: the whole user-WASM materialization fails exactly when some
requested target fails. -/
theorem collectUserWasms_none_iff (archs : List Nat)
    (uw : List (Nat × List (Nat × Bytes))) :
    collectUserWasms archs uw = none ↔ ∃ t ∈ archs, collectArch t uw = none := by
  induction archs with
  | nil => simp [collectUserWasms]
  | cons a rest ih =>
    simp only [collectUserWasms]
    cases hc : collectArch a uw with
    | none => simp [hc]
    | some m =>
      cases hr : collectUserWasms rest uw with
      | none => simp [hc, hr, ← ih]
      | some l => simp [hc, hr, ← ih]

/-- Helper: on success, looking up a requested target in the materialized
user-WASM map returns that target's collection. -/
theorem collectUserWasms_find (archs : List Nat)
    (uw : List (Nat × List (Nat × Bytes))) (l : List (Nat × List (Nat × Bytes)))
    (h : collectUserWasms archs uw = some l) (t : Nat) (ht : t ∈ archs) :
    ∃ m, mapFind t l = some m ∧ collectArch t uw = some m := by
  induction archs generalizing l with
  | nil => simp at ht
  | cons a rest ih =>
    simp only [collectUserWasms] at h
    cases hc : collectArch a uw with
    | none => rw [hc] at h; exact Option.noConfusion h
    | some m =>
      rw [hc] at h
      cases hr : collectUserWasms rest uw with
      | none => rw [hr] at h; exact Option.noConfusion h
      | some l' =>
        rw [hr] at h
        simp only [Option.some.injEq] at h
        subst h
        by_cases hat : a = t
        · subst hat
          exact ⟨m, by simp [mapFind], hc⟩
        · have ht' : t ∈ rest := by
            cases List.mem_cons.mp ht with
            | inl h' => exact absurd h'.symm hat
            | inr h' => exact h'
          obtain ⟨m', hm1, hm2⟩ := ih l' hr ht'
          exact ⟨m', by simp [mapFind, hat, hm1], hm2⟩

/-- Claim C7: `ToInput` rejects non-Ready entries; rejects an empty target
list when the entry recorded user WASMs; with targets present, fails when
some recorded code hash lacks bytes for some requested target; and on
success the produced input holds, for every requested target, exactly the
code-hash / bytes pairs the entry recorded for that target. -/
theorem toInput_spec (e : validationEntry) (stylusArchs : List Nat) :
    (e.Stage ≠ .Ready → e.ToInput stylusArchs = .error .notReady) ∧
    (e.Stage = .Ready → stylusArchs = [] → e.UserWasms ≠ [] →
      e.ToInput stylusArchs = .error .stylusRequired) ∧
    (e.Stage = .Ready → stylusArchs ≠ [] →
      (∃ p ∈ e.UserWasms, ∃ t ∈ stylusArchs, mapFind t p.2 = none) →
      e.ToInput stylusArchs = .error .archNotSupported) ∧
    (∀ input : ValidationInput, e.ToInput stylusArchs = .ok input →
      ∀ t ∈ stylusArchs, mapFind t input.UserWasms
        = some (e.UserWasms.filterMap
            (fun p => (mapFind t p.2).map (fun asm => (p.1, asm))))) := by
  refine ⟨?_, ?_, ?_, ?_⟩
  · intro h
    simp only [validationEntry.ToInput, if_pos h]
  · intro hs h1 h2
    have hs' : ¬ e.Stage ≠ ValidationEntryStage.Ready := by simp [hs]
    simp only [validationEntry.ToInput, if_neg hs', if_pos (And.intro h1 h2)]
  · intro hs hne hex
    have hs' : ¬ e.Stage ≠ ValidationEntryStage.Ready := by simp [hs]
    have hc2 : ¬ (stylusArchs = [] ∧ e.UserWasms ≠ []) := fun hcc => hne hcc.1
    obtain ⟨p, hp, t, ht, hfind⟩ := hex
    have harch : collectArch t e.UserWasms = none :=
      (collectArch_none_iff t e.UserWasms).mpr ⟨p, hp, hfind⟩
    have hcw : collectUserWasms stylusArchs e.UserWasms = none :=
      (collectUserWasms_none_iff stylusArchs e.UserWasms).mpr ⟨t, ht, harch⟩
    simp only [validationEntry.ToInput, if_neg hs', if_neg hc2, hcw]
  · intro input h t ht
    simp only [validationEntry.ToInput] at h
    split at h
    · exact Except.noConfusion h
    · split at h
      · exact Except.noConfusion h
      · split at h
        · exact Except.noConfusion h
        · rename_i uw' hcw
          simp only [Except.ok.injEq] at h
          subst h
          obtain ⟨m, hm1, hm2⟩ := collectUserWasms_find stylusArchs e.UserWasms uw' hcw t ht
          rw [collectArch_some_eq t e.UserWasms m hm2] at hm1
          exact hm1

/-- Ready entry fixture with one recorded user WASM. -/
def E7 : validationEntry :=
  { E4 with Stage := .Ready, msg := none, UserWasms := [(10, [(1, [7])])] }

/-- Witness for claim C7: an empty target list against a Ready entry
carrying user WASMs is rejected. -/
theorem toInput_spec_witness :
    E7.ToInput [] = .error .stylusRequired :=
  (toInput_spec E7 []).2.1 rfl rfl (by decide)

/-- Helper: when no execution spawner supports the module root, the
spawner scan launches nothing and raises no error. -/
theorem launchFirstSpawner_none (spawners : List SpawnerModel) (moduleRoot : Nat)
    (entry : validationEntry)
    (h : ∀ s ∈ spawners, s.SupportsModule moduleRoot = false) :
    launchFirstSpawner spawners moduleRoot entry = .ok none := by
  induction spawners with
  | nil => rfl
  | cons s rest ih =>
    have hs := h s (List.mem_cons_self s rest)
    simp only [launchFirstSpawner, hs]
    exact ih (fun q hq => h q (List.mem_cons_of_mem s hq))

/-- Claim C5: once a Ready entry is built, `ValidateResult` fails with the
not-supported error naming the module root when neither the Redis
validator (consulted only when `useExec` is unset) nor any execution
spawner supports it; when a run is launched and its await succeeds, a
post-state differing from `entry.End` yields `(false, observed, nil)` and
an equal post-state yields `(true, entry.End, nil)`. -/
theorem validateResult_spec (v : StatelessBlockValidatorModel) (pos : Nat)
    (useExec : Bool) (moduleRoot : Nat) (entry : validationEntry)
    (hentry : v.CreateReadyValidationEntry pos = .ok entry) :
    ((useExec = false → ∀ rv, v.redisValidator = some rv →
        rv.SupportsModule moduleRoot = false) →
      (∀ s ∈ v.execSpawners, s.SupportsModule moduleRoot = false) →
      v.ValidateResult pos useExec moduleRoot = .error (.notSupported moduleRoot)) ∧
    (∀ (run : RunModel) (gsEnd : GoGlobalState),
      v.launchRun useExec moduleRoot entry = .ok (some run) →
      run.Await = (gsEnd, false) → gsEnd ≠ entry.End →
      v.ValidateResult pos useExec moduleRoot = .ok (false, gsEnd, false)) ∧
    (∀ run : RunModel,
      v.launchRun useExec moduleRoot entry = .ok (some run) →
      run.Await = (entry.End, false) →
      v.ValidateResult pos useExec moduleRoot = .ok (true, entry.End, false)) := by
  refine ⟨?_, ?_, ?_⟩
  · intro hredis hspawn
    have hfirst := launchFirstSpawner_none v.execSpawners moduleRoot entry hspawn
    have hlaunch : v.launchRun useExec moduleRoot entry = .ok none := by
      cases useExec with
      | true =>
        simp only [StatelessBlockValidatorModel.launchRun]
        exact hfirst
      | false =>
        cases hrv : v.redisValidator with
        | none =>
          simp only [StatelessBlockValidatorModel.launchRun, hrv]
          exact hfirst
        | some rv =>
          have hsup := hredis rfl rv hrv
          simp only [StatelessBlockValidatorModel.launchRun, hrv, hsup]
          exact hfirst
    simp only [StatelessBlockValidatorModel.ValidateResult, hentry, hlaunch]
  · intro run gsEnd hrun hawait hne
    simp only [StatelessBlockValidatorModel.ValidateResult, hentry, hrun, hawait,
      if_pos hne]
  · intro run hrun hawait
    have hnn : ¬ entry.End ≠ entry.End := by simp
    simp only [StatelessBlockValidatorModel.ValidateResult, hentry, hrun, hawait,
      if_neg hnn]

/-- Streamer fixture for a two-message chain: results for messages 0 and
1, no delayed-message consumption, no historical batches. -/
def streamer5 : StreamerModel :=
  { GetMessage := fun p =>
      if p = 0 then some ⟨0, some []⟩ else if p = 1 then some ⟨0, some []⟩ else none
    ResultAtMessageIndex := fun p =>
      if p = 0 then some ⟨5, 6⟩ else if p = 1 then some ⟨7, 8⟩ else none
    ChainConfig := ⟨false⟩ }

/-- Tracker fixture: a single posted batch 0 holding messages `[0,2)`. -/
def tracker5 : InboxTrackerModel :=
  { GetBatchMessageCount := fun b => if b = 0 then some 2 else none
    GetBatchCount := some 1
    FindInboxBatchContainingMessage := fun p => if p = 1 then some (0, true) else none
    GetDelayedMessageBytes := fun _ => none }

/-- Inbox-reader fixture posting an empty payload for batch 0. -/
def reader5 : InboxReaderModel :=
  { GetSequencerMessageBytes := fun b => if b = 0 then some ([], 0) else none }

/-- Recorder fixture agreeing with the stored post-state hash 7. -/
def recorder5 : RecorderModel := { RecordBlockCreation := fun _ _ => some ⟨7, none, []⟩ }

/-- Validator fixture with a fully working entry pipeline and no
execution backend at all. -/
def V5a : StatelessBlockValidatorModel :=
  { execSpawners := []
    redisValidator := none
    recorder := recorder5
    inboxReader := reader5
    inboxTracker := tracker5
    streamer := streamer5
    dapReaders := []
    IsDASMessageHeaderByte := fun _ => false }

/-- The Ready entry the `V5a` pipeline produces for message 1. -/
def E5 : validationEntry :=
  { Stage := .Ready, Pos := 1, Start := ⟨5, 6, 0, 1⟩, End := ⟨7, 8, 1, 0⟩
    HasDelayedMsg := false, DelayedMsgNr := 0, ChainConfig := ⟨false⟩, msg := none
    BatchInfo := [⟨0, []⟩], Preimages := [], UserWasms := [], DelayedMsg := [] }

/-- Witness for claim C5: with a Ready entry built end to end and no
backend supporting module root 99, validation fails as not supported. -/
theorem validateResult_spec_witness :
    V5a.ValidateResult 1 false 99 = .error (.notSupported 99) :=
  (validateResult_spec V5a 1 false 99 E5 (by decide)).1
    (fun _ rv h => by simp [V5a] at h)
    (fun s hs => by simp [V5a] at hs)
